import Mathlib

/-!
Shallow embedding of the access-control, sharing, and versioning logic of the
notes-django service (apps `notes` and `groups`), together with theorems that
settle the specification claims against it.

The embedding follows the source files:
  * `notes/permissions.py` — `NotePermission.has_permission` /
    `NotePermission.has_object_permission`;
  * `notes/models.py` — `Note.save`, `NoteCollaborator`, `NoteVersion`;
  * `notes/views.py` — `NoteViewSet.share` / `NoteViewSet.unshare`;
  * `notes/signals.py` — `handle_note_created`, `create_note_version`
    (including the `difflib.unified_diff`-based change statistics);
  * `groups/models.py` — `GroupNote`, `GroupMembership`.

Users and groups are identified by `Nat` ids; Django's string-valued choice
fields (`permission`, `status`, `visibility`, view actions) are kept as
`String`s, exactly as the Python code compares them.  Timestamps are `Nat`
(the value of `timezone.now()` is passed in explicitly).  Python string
helpers (`str.split`, `str.splitlines`, slicing, `len`) are re-implemented
over `String.data` character lists so that every definition evaluates by
kernel reduction.
-/

namespace NotesDjango

/-- Python whitespace for `str.split()` with no separator. -/
def isPyWhitespace (c : Char) : Bool :=
  c == ' ' || c == '\t' || c == '\n' || c == '\r' || c == '\x0b' || c == '\x0c'

/-- Helper for `pySplit`: accumulates the current word (reversed). -/
def pySplitAux : List Char → List Char → List String
  | [], acc => if acc.isEmpty then [] else [String.mk acc.reverse]
  | c :: cs, acc =>
    if isPyWhitespace c then
      if acc.isEmpty then pySplitAux cs [] else String.mk acc.reverse :: pySplitAux cs []
    else
      pySplitAux cs (c :: acc)

/-- Python `s.split()` (no argument): split on runs of whitespace, dropping
empty fields. -/
def pySplit (s : String) : List String :=
  pySplitAux s.data []

/-- Helper for `pySplitlines`. -/
def pySplitlinesAux : List Char → List Char → List String
  | [], acc => if acc.isEmpty then [] else [String.mk acc.reverse]
  | '\r' :: '\n' :: cs, acc => String.mk acc.reverse :: pySplitlinesAux cs []
  | '\r' :: cs, acc => String.mk acc.reverse :: pySplitlinesAux cs []
  | '\n' :: cs, acc => String.mk acc.reverse :: pySplitlinesAux cs []
  | c :: cs, acc => pySplitlinesAux cs (c :: acc)

/-- Python `s.splitlines()` restricted to the `\n`, `\r`, `\r\n` terminators
(the only ones occurring in note contents). -/
def pySplitlines (s : String) : List String :=
  pySplitlinesAux s.data []

/-- Python `len(s)` — number of characters. -/
def pyLen (s : String) : Nat :=
  s.data.length

/-- Python `s[:n]` — first `n` characters. -/
def pyTake (s : String) (n : Nat) : String :=
  String.mk (s.data.take n)

/-- `charListLeads p s` — `p` is an initial segment of `s`. -/
def charListLeads : List Char → List Char → Bool
  | [], _ => true
  | _ :: _, [] => false
  | p :: ps, c :: cs => p == c && charListLeads ps cs

/-- Python `s.startswith(p)`. -/
def pyStarts (s p : String) : Bool :=
  charListLeads p.data s.data

/-! ## Data model (`notes/models.py`, `groups/models.py`) -/

/-- The fields of `notes.models.Note` that the verified logic reads or
writes.  `author` is a user id; `published_at`/`archived_at` are `none`
while unset (Python `None`). -/
structure Note where
  id : Nat
  author : Nat
  title : String
  content : String
  excerpt : String
  word_count : Nat
  read_time : Nat
  status : String
  visibility : String
  published_at : Option Nat
  archived_at : Option Nat
deriving Repr, DecidableEq

/-- A row of `notes.models.NoteCollaborator` (the direct access-grant
table; `unique_together = ['note', 'user']`). -/
structure NoteCollaborator where
  note : Nat
  user : Nat
  permission : String
  is_active : Bool
deriving Repr, DecidableEq

/-- A row of `groups.models.GroupNote` — the document-to-group sharing
link.  Its `PERMISSION_CHOICES` are only `view`/`comment`/`edit`. -/
structure GroupNote where
  group : Nat
  note : Nat
  permission : String
deriving Repr, DecidableEq

/-- A row of `groups.models.GroupMembership`. -/
structure GroupMembership where
  group : Nat
  user : Nat
  role : String
  permission : String
  is_active : Bool
deriving Repr, DecidableEq

/-- The persistent state visible to the permission and sharing logic. -/
structure Db where
  collaborators : List NoteCollaborator
  group_notes : List GroupNote
  group_memberships : List GroupMembership
deriving Repr, DecidableEq

/-! ## `notes/permissions.py` — `NotePermission` -/

/-- `obj.collaborators.filter(id=request.user.id,
notecollaborator__is_active=True).exists()` scoped to the note `obj`. -/
def activeCollabExists (db : Db) (noteId userId : Nat) : Bool :=
  db.collaborators.any fun c => c.note == noteId && c.user == userId && c.is_active

/-- `obj.notecollaborator_set.get(user=request.user, is_active=True)` —
`some` row or `none` (`NoteCollaborator.DoesNotExist`).  Unique because of
the `(note, user)` unique constraint. -/
def findActiveCollab (db : Db) (noteId userId : Nat) : Option NoteCollaborator :=
  db.collaborators.find? fun c => c.note == noteId && c.user == userId && c.is_active

/-- `rest_framework.permissions.IsAuthenticated.has_permission`. -/
def isAuthenticatedCheck (isAuthenticated : Bool) : Bool :=
  isAuthenticated

/-- `NotePermission.has_permission`: `request.user and
request.user.is_authenticated`. -/
def notePermissionView (isAuthenticated : Bool) : Bool :=
  isAuthenticated

/-- `NotePermission.has_object_permission`.  `methodSafe` is
`request.method in permissions.SAFE_METHODS`; `action` is `view.action`.
Note that the group tables of `db` are never consulted. -/
def hasObjectPermission (db : Db) (userId : Nat) (methodSafe : Bool)
    (action : String) (obj : Note) : Bool :=
  if methodSafe then
    if obj.author == userId then true
    else if activeCollabExists db obj.id userId then true
    else if obj.visibility == "public" && obj.status == "published" then true
    else false
  else
    if action == "destroy" then obj.author == userId
    else if obj.author == userId then true
    else
      match findActiveCollab db obj.id userId with
      | none => false
      | some collaborator =>
        if action == "update" || action == "partial_update" then
          collaborator.permission == "edit" || collaborator.permission == "admin"
        else if action == "share" || action == "unshare" then
          collaborator.permission == "admin"
        else
          collaborator.permission == "edit" || collaborator.permission == "admin"

/-- The full DRF decision for an object-level request against
`NoteViewSet` (`permission_classes = [IsAuthenticated, NotePermission]`):
every `has_permission` must pass, then every `has_object_permission`. -/
def noteActionAllowed (db : Db) (isAuthenticated : Bool) (userId : Nat)
    (methodSafe : Bool) (action : String) (obj : Note) : Bool :=
  isAuthenticatedCheck isAuthenticated && notePermissionView isAuthenticated &&
    hasObjectPermission db userId methodSafe action obj

/-! ## `notes/models.py` — `Note.save` -/

/-- `Note.save`: recomputes `word_count` and `read_time`, fills an empty
`excerpt`, and stamps `published_at`/`archived_at` (the `elif` makes the
two stamps mutually exclusive within one save). -/
def noteSave (n : Note) (now : Nat) : Note :=
  let wc := (pySplit n.content).length
  let rt := max 1 (wc / 200)
  let ex :=
    if n.excerpt == "" && !(n.content == "") then
      if 500 < pyLen n.content then pyTake n.content 500 ++ "..." else n.content
    else n.excerpt
  let pa :=
    if n.status == "published" && n.published_at.isNone then some now
    else n.published_at
  let aa :=
    if !(n.status == "published" && n.published_at.isNone) &&
        (n.status == "archived" && n.archived_at.isNone) then some now
    else n.archived_at
  { n with word_count := wc, read_time := rt, excerpt := ex,
           published_at := pa, archived_at := aa }

/-! ## `difflib` (Python standard library, as used by `create_note_version`)

`create_note_version` calls `difflib.unified_diff(old_lines, new_lines,
lineterm='')`, which is `SequenceMatcher(None, a, b)` (no junk predicate,
`autojunk=True`) plus unified output formatting.  The definitions below
re-implement that algorithm over `List String`. -/

/-- Ascending list of the indices at which `x` occurs in `b`. -/
def indicesOf (b : List String) (x : String) : List Nat :=
  (List.range b.length).filter fun j => b.getD j "" == x

/-- `SequenceMatcher.b2j[x]` after the autojunk purge: all positions of
`x` in `b`, unless `len(b) >= 200` and `x` is "popular" (occurs more than
`len(b) // 100 + 1` times), in which case it is dropped. -/
def b2j (b : List String) (x : String) : List Nat :=
  let idxs := indicesOf b x
  if 200 ≤ b.length && b.length / 100 + 1 < idxs.length then [] else idxs

/-- The dynamic-programming core of `SequenceMatcher.find_longest_match`:
the `for i in range(alo, ahi)` loop maintaining `j2len`.  State is
`(besti, bestj, bestsize, j2len)`. -/
def fLMCore (a b : List String) (alo ahi blo bhi : Nat) :
    Nat × Nat × Nat × List (Nat × Nat) :=
  (List.range' alo (ahi - alo)).foldl
    (fun st i =>
      let js := (b2j b (a.getD i "")).filter fun j => decide (blo ≤ j) && decide (j < bhi)
      let inner := js.foldl
        (fun (st2 : Nat × Nat × Nat × List (Nat × Nat)) j =>
          let prev := if j == 0 then 0 else ((st.2.2.2).lookup (j - 1)).getD 0
          let k := prev + 1
          let nj2 := (j, k) :: st2.2.2.2
          if st2.2.2.1 < k then (i + 1 - k, j + 1 - k, k, nj2)
          else (st2.1, st2.2.1, st2.2.2.1, nj2))
        (st.1, st.2.1, st.2.2.1, ([] : List (Nat × Nat)))
      inner)
    (alo, blo, 0, ([] : List (Nat × Nat)))

/-- The first (non-junk) extension loop of `find_longest_match`, walking
the match backwards while the preceding elements agree.  `fuel` bounds
the iteration count (`besti` decreases each step, so `besti + 1` always
suffices). -/
def extendBack (a b : List String) (alo blo : Nat) :
    Nat → Nat × Nat × Nat → Nat × Nat × Nat
  | 0, st => st
  | fuel + 1, (besti, bestj, bestsize) =>
    if alo < besti && blo < bestj &&
        (a.getD (besti - 1) "" == b.getD (bestj - 1) "") then
      extendBack a b alo blo fuel (besti - 1, bestj - 1, bestsize + 1)
    else (besti, bestj, bestsize)

/-- The second (non-junk) extension loop of `find_longest_match`, growing
the match forwards.  `bestsize` increases and stays below `ahi`, so fuel
`ahi + 1` always suffices. -/
def extendFwd (a b : List String) (ahi bhi : Nat) :
    Nat → Nat × Nat × Nat → Nat × Nat × Nat
  | 0, st => st
  | fuel + 1, (besti, bestj, bestsize) =>
    if besti + bestsize < ahi && bestj + bestsize < bhi &&
        (a.getD (besti + bestsize) "" == b.getD (bestj + bestsize) "") then
      extendFwd a b ahi bhi fuel (besti, bestj, bestsize + 1)
    else (besti, bestj, bestsize)

/-- `SequenceMatcher.find_longest_match` with `isjunk=None` (so the two
junk extension loops are no-ops and are omitted). -/
def findLongestMatch (a b : List String) (alo ahi blo bhi : Nat) : Nat × Nat × Nat :=
  let core := fLMCore a b alo ahi blo bhi
  let ext := extendBack a b alo blo (core.1 + 1) (core.1, core.2.1, core.2.2.1)
  extendFwd a b ahi bhi (ahi + 1) ext

/-- The work-queue loop of `SequenceMatcher.get_matching_blocks`.  The
Python version pops a stack; since the collected blocks are sorted
afterwards, the visit order is irrelevant.  Each productive pop consumes
at least one matched element, so fuel `2 * (len a + len b) + 4` always
suffices. -/
def matchingBlocksLoop (a b : List String) :
    Nat → List (Nat × Nat × Nat × Nat) → List (Nat × Nat × Nat) → List (Nat × Nat × Nat)
  | 0, _, acc => acc
  | _ + 1, [], acc => acc
  | fuel + 1, (alo, ahi, blo, bhi) :: rest, acc =>
    let m := findLongestMatch a b alo ahi blo bhi
    if m.2.2 == 0 then matchingBlocksLoop a b fuel rest acc
    else
      let q1 := if alo < m.1 && blo < m.2.1 then [(alo, m.1, blo, m.2.1)] else []
      let q2 :=
        if m.1 + m.2.2 < ahi && m.2.1 + m.2.2 < bhi then
          [(m.1 + m.2.2, ahi, m.2.1 + m.2.2, bhi)]
        else []
      matchingBlocksLoop a b fuel (q1 ++ q2 ++ rest) (m :: acc)

/-- Lexicographic order on match triples, as Python sorts tuples. -/
def blockLE (x y : Nat × Nat × Nat) : Bool :=
  decide (x.1 < y.1) ||
    (x.1 == y.1 && (decide (x.2.1 < y.2.1) ||
      (x.2.1 == y.2.1 && decide (x.2.2 ≤ y.2.2))))

/-- Insertion into a `blockLE`-sorted list. -/
def insertBlock (x : Nat × Nat × Nat) : List (Nat × Nat × Nat) → List (Nat × Nat × Nat)
  | [] => [x]
  | y :: ys => if blockLE x y then x :: y :: ys else y :: insertBlock x ys

/-- Insertion sort implementing `matching_blocks.sort()`. -/
def sortBlocks : List (Nat × Nat × Nat) → List (Nat × Nat × Nat)
  | [] => []
  | x :: xs => insertBlock x (sortBlocks xs)

/-- The adjacency-merging pass at the end of `get_matching_blocks`
(state `(i1, j1, k1)` starts at `(0, 0, 0)`; a block with `k1 = 0` is
never emitted). -/
def mergeAdjacent : Nat × Nat × Nat → List (Nat × Nat × Nat) → List (Nat × Nat × Nat)
  | (i1, j1, k1), [] => if k1 == 0 then [] else [(i1, j1, k1)]
  | (i1, j1, k1), (i2, j2, k2) :: rest =>
    if i1 + k1 == i2 && j1 + k1 == j2 then mergeAdjacent (i1, j1, k1 + k2) rest
    else (if k1 == 0 then [] else [(i1, j1, k1)]) ++ mergeAdjacent (i2, j2, k2) rest

/-- `SequenceMatcher.get_matching_blocks`, terminator `(len a, len b, 0)`
included. -/
def getMatchingBlocks (a b : List String) : List (Nat × Nat × Nat) :=
  let fuel := 2 * (a.length + b.length) + 4
  let blocks := matchingBlocksLoop a b fuel [(0, a.length, 0, b.length)] []
  mergeAdjacent (0, 0, 0) (sortBlocks blocks) ++ [(a.length, b.length, 0)]

/-- An opcode `(tag, i1, i2, j1, j2)` of `SequenceMatcher.get_opcodes`. -/
abbrev Opcode := String × Nat × Nat × Nat × Nat

/-- `SequenceMatcher.get_opcodes`. -/
def getOpcodes (a b : List String) : List Opcode :=
  let final := (getMatchingBlocks a b).foldl
    (fun (st : Nat × Nat × List Opcode) blk =>
      let i := st.1
      let j := st.2.1
      let tag :=
        if i < blk.1 && j < blk.2.1 then "replace"
        else if i < blk.1 then "delete"
        else if j < blk.2.1 then "insert"
        else ""
      let ans1 := if tag == "" then st.2.2 else st.2.2 ++ [(tag, i, blk.1, j, blk.2.1)]
      let i2 := blk.1 + blk.2.2
      let j2 := blk.2.1 + blk.2.2
      let ans2 := if blk.2.2 == 0 then ans1 else ans1 ++ [("equal", blk.1, i2, blk.2.1, j2)]
      (i2, j2, ans2))
    (0, 0, ([] : List Opcode))
  final.2.2

/-- Widen the last opcode if it is an `equal` run (part of
`get_grouped_opcodes`). -/
def fixLastOpcode (n : Nat) : List Opcode → List Opcode
  | [] => []
  | [(tag, i1, i2, j1, j2)] =>
    if tag == "equal" then [(tag, i1, min i2 (i1 + n), j1, min j2 (j1 + n))]
    else [(tag, i1, i2, j1, j2)]
  | c :: cs => c :: fixLastOpcode n cs

/-- Is this group a single `equal` opcode (such a trailing group is not
yielded)? -/
def isSingleEqual : List Opcode → Bool
  | [c] => c.1 == "equal"
  | _ => false

/-- The grouping loop of `get_grouped_opcodes`: split at `equal` runs
longer than `2 * n` context lines. -/
def groupLoop (n : Nat) : List Opcode → List Opcode → List (List Opcode)
  | group, [] => if !group.isEmpty && !isSingleEqual group then [group] else []
  | group, (tag, i1, i2, j1, j2) :: rest =>
    if tag == "equal" && n + n < i2 - i1 then
      (group ++ [(tag, i1, min i2 (i1 + n), j1, min j2 (j1 + n))]) ::
        groupLoop n [(tag, max i1 (i2 - n), i2, max j1 (j2 - n), j2)] rest
    else groupLoop n (group ++ [(tag, i1, i2, j1, j2)]) rest

/-- `SequenceMatcher.get_grouped_opcodes` with the default context
`n = 3`. -/
def getGroupedOpcodes (a b : List String) : List (List Opcode) :=
  let n := 3
  let codes0 := getOpcodes a b
  let codes1 := if codes0.isEmpty then [("equal", 0, 1, 0, 1)] else codes0
  let codes2 :=
    match codes1 with
    | [] => codes1
    | (tag, i1, i2, j1, j2) :: rest =>
      if tag == "equal" then (tag, max i1 (i2 - n), i2, max j1 (j2 - n), j2) :: rest
      else codes1
  groupLoop n [] (fixLastOpcode n codes2)

/-- `difflib._format_range_unified`. -/
def formatRangeUnified (start stop : Nat) : String :=
  let beginning := start + 1
  let length := stop - start
  if length == 1 then toString beginning
  else
    let beginning2 := if length == 0 then beginning - 1 else beginning
    toString beginning2 ++ "," ++ toString length

/-- Python slice `l[i1:i2]`. -/
def sliceList (l : List String) (i1 i2 : Nat) : List String :=
  (l.drop i1).take (i2 - i1)

/-- The tagged lines one opcode contributes to the unified diff body. -/
def opcodeLines (a b : List String) (c : Opcode) : List String :=
  if c.1 == "equal" then (sliceList a c.2.1 c.2.2.1).map (fun l => " " ++ l)
  else
    (if c.1 == "replace" || c.1 == "delete" then
      (sliceList a c.2.1 c.2.2.1).map (fun l => "-" ++ l)
     else []) ++
    (if c.1 == "replace" || c.1 == "insert" then
      (sliceList b c.2.2.2.1 c.2.2.2.2).map (fun l => "+" ++ l)
     else [])

/-- The lines of one group: the `@@` hunk header followed by the tagged
lines. -/
def groupDiffLines (a b : List String) (g : List Opcode) : List String :=
  match g.head?, g.getLast? with
  | some first, some last =>
    let fr := formatRangeUnified first.2.1 last.2.2.1
    let toR := formatRangeUnified first.2.2.2.1 last.2.2.2.2
    ("@@ -" ++ fr ++ " +" ++ toR ++ " @@") :: (g.map (opcodeLines a b)).flatten
  | _, _ => []

/-- `difflib.unified_diff(a, b, lineterm='')` with empty file names and
dates: the `--- ` / `+++ ` headers are emitted once before the first
group; no output at all when there is no group. -/
def unifiedDiff (a b : List String) : List String :=
  match getGroupedOpcodes a b with
  | [] => []
  | groups => ["--- ", "+++ "] ++ (groups.map (groupDiffLines a b)).flatten

/-! ## `notes/signals.py` — `create_note_version` -/

/-- The change-statistics loop of `create_note_version`:
`(characters_added, characters_removed, words_added, words_removed)`
accumulated over the `difflib.unified_diff` lines of the two contents.
A `+`-tagged line contributes `len(line) - 1` characters and
`len(line.split()) - 1` words (and symmetrically for `-`). -/
def diffStats (oldContent newContent : String) : Nat × Nat × Nat × Nat :=
  let old_lines := pySplitlines oldContent
  let new_lines := pySplitlines newContent
  (unifiedDiff old_lines new_lines).foldl
    (fun (st : Nat × Nat × Nat × Nat) line =>
      if pyStarts line "+" && !pyStarts line "+++" then
        (st.1 + (pyLen line - 1), st.2.1, st.2.2.1 + ((pySplit line).length - 1), st.2.2.2)
      else if pyStarts line "-" && !pyStarts line "---" then
        (st.1, st.2.1 + (pyLen line - 1), st.2.2.1, st.2.2.2 + ((pySplit line).length - 1))
      else st)
    (0, 0, 0, 0)

/-- A row of `notes.models.NoteVersion` (per-note table, so the note id
is left implicit; `unique_together = ['note', 'version_number']`). -/
structure NoteVersion where
  version_number : Nat
  title : String
  content : String
  change_summary : String
  created_by : Nat
  characters_added : Nat
  characters_removed : Nat
  words_added : Nat
  words_removed : Nat
deriving Repr, DecidableEq

/-- A note's version store, kept in the queryset order that every read in
`create_note_version` uses (`Meta.ordering = ['-version_number']`, i.e.
descending version number). -/
abbrev VersionStore := List NoteVersion

/-- The version row built by `create_note_version`:
`note.versions.first()` is the head of the descending store; the new
number is `last_version.version_number + 1`, or `1` for the first
version; the diff statistics are all zero when no prior version
exists. -/
def nextVersion (store : VersionStore) (title content : String) (user : Nat)
    (change_summary : String) : NoteVersion :=
  let version_number :=
    match store.head? with
    | some last_version => last_version.version_number + 1
    | none => 1
  let stats :=
    match store.head? with
    | some last_version => diffStats last_version.content content
    | none => (0, 0, 0, 0)
  { version_number := version_number, title := title, content := content,
    change_summary := change_summary, created_by := user,
    characters_added := stats.1, characters_removed := stats.2.1,
    words_added := stats.2.2.1, words_removed := stats.2.2.2 }

/-- Insert a row into the descending-ordered view of the version table
(a plain DB insert, re-read through `ordering = ['-version_number']`). -/
def insertDescByNumber (v : NoteVersion) : VersionStore → VersionStore
  | [] => [v]
  | w :: ws =>
    if w.version_number ≤ v.version_number then v :: w :: ws
    else w :: insertDescByNumber v ws

/-- `create_note_version(note, user, change_summary)`: append the new
version, then prune — `note.versions.all()[max_versions:]` (the rows past
the `max_versions` newest in the descending order) are deleted, so the
`max_versions` newest rows survive. -/
def createNoteVersion (max_versions : Nat) (store : VersionStore)
    (title content : String) (user : Nat) (change_summary : String) : VersionStore :=
  (insertDescByNumber (nextVersion store title content user change_summary) store).take
    max_versions

/-- One title/content commit against the version store (what a `Note`
save with changed title or content triggers via `create_note_version`). -/
structure CommitInput where
  title : String
  content : String
  user : Nat
  summary : String
deriving Repr, DecidableEq

/-- Fold a list of commits through `createNoteVersion`. -/
def runCommits (max_versions : Nat) : VersionStore → List CommitInput → VersionStore
  | store, [] => store
  | store, c :: cs =>
    runCommits max_versions
      (createNoteVersion max_versions store c.title c.content c.user c.summary) cs

/-- The version numbers assigned by a list of commits, in commit order. -/
def commitNumbers (max_versions : Nat) : VersionStore → List CommitInput → List Nat
  | _, [] => []
  | store, c :: cs =>
    (nextVersion store c.title c.content c.user c.summary).version_number ::
      commitNumbers max_versions
        (createNoteVersion max_versions store c.title c.content c.user c.summary) cs

/-- `handle_note_created`: the store of a freshly created note —
`create_note_version(note, note.author, 'Versión inicial')` run on an
empty version table. -/
def noteCreationStore (max_versions : Nat) (author : Nat)
    (title content : String) : VersionStore :=
  createNoteVersion max_versions [] title content author "Versión inicial"

/-! ## `notes/views.py` — `NoteViewSet.share` / `NoteViewSet.unshare` -/

/-- `NoteCollaborator.objects.get_or_create(note=note, user=user,
defaults={'permission': permission, 'is_active': True})` — the per-user
body of the `share` action.  Returns the new table, the row, and the
`created` flag.  When a row for the `(note, user)` pair already exists it
is returned untouched: `get_or_create` does not apply `defaults` to an
existing row. -/
def getOrCreateCollaborator (collabs : List NoteCollaborator) (noteId userId : Nat)
    (permission : String) : List NoteCollaborator × NoteCollaborator × Bool :=
  match collabs.find? (fun c => c.note == noteId && c.user == userId) with
  | some c => (collabs, c, false)
  | none =>
    let c : NoteCollaborator :=
      { note := noteId, user := userId, permission := permission, is_active := true }
    (collabs ++ [c], c, true)

/-- The `shared_count` contribution of one user in `share`: `1` only if
`get_or_create` actually created a row (only then does the
`NoteCollaborator` post-save signal fire the new-share notification). -/
def shareCreatedCount (collabs : List NoteCollaborator) (noteId userId : Nat)
    (permission : String) : Nat :=
  if (getOrCreateCollaborator collabs noteId userId permission).2.2 then 1 else 0

/-- `NoteViewSet.unshare`: look up `NoteCollaborator.objects.get(note=note,
user_id=user_id)` — with no `is_active` filter — and hard-delete it
(`collaborator.delete()`); `DoesNotExist` maps to HTTP 404. -/
def unshareCollaborator (collabs : List NoteCollaborator) (noteId userId : Nat) :
    Except Nat (List NoteCollaborator) :=
  match collabs.find? (fun c => c.note == noteId && c.user == userId) with
  | none => Except.error 404
  | some _ => Except.ok (collabs.eraseP (fun c => c.note == noteId && c.user == userId))

/-- A sequence of lifecycle saves: each step sets `status` (as the
`publish`/`archive`/update actions do) and then runs `Note.save` at the
given time. -/
def applySaves (n : Note) : List (String × Nat) → Note
  | [] => n
  | (st, now) :: rest => applySaves (noteSave { n with status := st } now) rest

/-! ## Theorems -/

/-- C1: for every note and every (authenticated) requesting user, the
`destroy` action is authorized if and only if the user is the note's
author; in particular a collaborator holding an active admin-level grant
on the note is denied deletion. -/
theorem c1_destroy_requires_author (db : Db) (u : Nat) (obj : Note) :
    noteActionAllowed db true u false "destroy" obj = (obj.author == u)
    ∧ (∀ c, c ∈ db.collaborators → c.note = obj.id → c.user = u →
        c.permission = "admin" → c.is_active = true → obj.author ≠ u →
        noteActionAllowed db true u false "destroy" obj = false) := by
  have hmain : noteActionAllowed db true u false "destroy" obj = (obj.author == u) := rfl
  refine ⟨hmain, fun c _ _ _ _ _ hne => ?_⟩
  rw [hmain]
  exact beq_eq_false_iff_ne.mpr hne

/-- C1 witness: user 2 holds an active admin grant on note 1 (authored by
user 1) and is still denied `destroy`. -/
theorem c1_destroy_requires_author_witness :
    noteActionAllowed ⟨[⟨1, 2, "admin", true⟩], [], []⟩ true 2 false "destroy"
      ⟨1, 1, "t", "hello", "", 0, 0, "draft", "private", none, none⟩ = false :=
  (c1_destroy_requires_author ⟨[⟨1, 2, "admin", true⟩], [], []⟩ 2
      ⟨1, 1, "t", "hello", "", 0, 0, "draft", "private", none, none⟩).2
    ⟨1, 2, "admin", true⟩ (by decide) rfl rfl rfl rfl (by decide)

/-- C2 counterexample: note 1 (private, draft, author 1) is shared into
group 10 at link level `comment`; user 2 is an active member of group 10
with group permission `admin`.  The claim says the group path gives user
2 comment-level access (so at least read); the code denies the read
outright — `NotePermission` never consults the group tables. -/
theorem c2_group_ceiling_counterexample :
    noteActionAllowed
      ⟨[], [⟨10, 1, "comment"⟩], [⟨10, 2, "member", "admin", true⟩]⟩
      true 2 true "retrieve"
      ⟨1, 1, "t", "hello", "", 0, 0, "draft", "private", none, none⟩ = false := by
  decide

/-- C2 (amended): the group path contributes nothing to a user's
effective permission — the permission decision is invariant under
arbitrary changes to the group-share and group-membership tables, and a
requester who is not the author, has no active direct grant, and for
whom the note is not public-and-published is denied read access no
matter what group links exist. -/
theorem c2_group_path_contributes_nothing :
    (∀ collabs gn1 gm1 gn2 gm2 isAuth u ms act obj,
      noteActionAllowed ⟨collabs, gn1, gm1⟩ isAuth u ms act obj =
        noteActionAllowed ⟨collabs, gn2, gm2⟩ isAuth u ms act obj)
    ∧ (∀ db u obj, obj.author ≠ u →
        activeCollabExists db obj.id u = false →
        ¬(obj.visibility = "public" ∧ obj.status = "published") →
        noteActionAllowed db true u true "retrieve" obj = false) := by
  constructor
  · intro collabs gn1 gm1 gn2 gm2 isAuth u ms act obj
    rfl
  · intro db u obj h1 h2 h3
    have ha : (obj.author == u) = false := beq_eq_false_iff_ne.mpr h1
    have hb : (obj.visibility == "public" && obj.status == "published") = false := by
      cases hvs : (obj.visibility == "public" && obj.status == "published")
      · rfl
      · exfalso
        apply h3
        simp only [Bool.and_eq_true, beq_iff_eq] at hvs
        exact hvs
    simp [noteActionAllowed, hasObjectPermission, isAuthenticatedCheck,
      notePermissionView, ha, h2, hb]

/-- C2 witness: with an empty collaborator table and a group share at
level `comment` for an `admin`-level member, the member's read of the
private draft note is denied. -/
theorem c2_group_path_contributes_nothing_witness :
    noteActionAllowed ⟨[], [⟨10, 3, "comment"⟩], [⟨10, 4, "member", "admin", true⟩]⟩
      true 4 true "retrieve"
      ⟨3, 1, "t", "hello", "", 0, 0, "draft", "private", none, none⟩ = false :=
  c2_group_path_contributes_nothing.2
    ⟨[], [⟨10, 3, "comment"⟩], [⟨10, 4, "member", "admin", true⟩]⟩ 4
    ⟨3, 1, "t", "hello", "", 0, 0, "draft", "private", none, none⟩
    (by decide) rfl (by decide)

/-- C3 counterexample: an unauthenticated read of a public, published
note is denied — `IsAuthenticated` and `NotePermission.has_permission`
both reject the request before any object-level rule runs, so public
visibility does not bypass the authentication-level check. -/
theorem c3_public_read_counterexample :
    noteActionAllowed ⟨[], [], []⟩ false 0 true "retrieve"
      ⟨1, 1, "t", "hello", "", 0, 0, "published", "public", some 5, none⟩ = false := by
  decide

/-- C3 (amended): every read of a public, published note by an
authenticated requester is permitted regardless of grant state, but the
authentication-level check still applies — every request with an
unauthenticated user is denied. -/
theorem c3_public_published_read :
    (∀ db u act obj, obj.visibility = "public" → obj.status = "published" →
        noteActionAllowed db true u true act obj = true)
    ∧ (∀ db u ms act obj, noteActionAllowed db false u ms act obj = false) := by
  constructor
  · intro db u act obj hv hs
    simp [noteActionAllowed, hasObjectPermission, isAuthenticatedCheck,
      notePermissionView, hv, hs]
  · intro db u ms act obj
    simp [noteActionAllowed, isAuthenticatedCheck]

/-- C3 witness: a stranger (user 9, authenticated, no grants) can read a
public published note. -/
theorem c3_public_published_read_witness :
    noteActionAllowed ⟨[], [], []⟩ true 9 true "retrieve"
      ⟨1, 1, "t", "hello", "", 0, 0, "published", "public", some 5, none⟩ = true :=
  c3_public_published_read.1 ⟨[], [], []⟩ 9 "retrieve"
    ⟨1, 1, "t", "hello", "", 0, 0, "published", "public", some 5, none⟩ rfl rfl

/-- A save never changes a `published_at` that is already set. -/
lemma noteSave_publishedAt_preserved (n : Note) (now t : Nat)
    (h : n.published_at = some t) : (noteSave n now).published_at = some t := by
  simp [noteSave, h]

/-- A set `published_at` survives any sequence of lifecycle saves. -/
lemma applySaves_publishedAt_preserved :
    ∀ (steps : List (String × Nat)) (n : Note) (t : Nat),
      n.published_at = some t → (applySaves n steps).published_at = some t := by
  intro steps
  induction steps with
  | nil => intro n t h; exact h
  | cons step rest ih =>
    intro n t h
    obtain ⟨st, now⟩ := step
    exact ih _ t (noteSave_publishedAt_preserved _ now t h)

/-- Across a sequence of lifecycle saves, `published_at` ends up as the
timestamp of the first save whose status is `published` (or stays
unset). -/
lemma applySaves_publishedAt_first :
    ∀ (steps : List (String × Nat)) (n : Note),
      n.published_at = none →
      (applySaves n steps).published_at =
        ((steps.find? fun s => s.1 == "published").map Prod.snd) := by
  intro steps
  induction steps with
  | nil => intro n h; simpa using h
  | cons step rest ih =>
    intro n h
    obtain ⟨st, now⟩ := step
    by_cases hs : st = "published"
    · subst hs
      have hset : (noteSave { n with status := "published" } now).published_at = some now := by
        simp [noteSave, h]
      simp only [applySaves, List.find?_cons, beq_self_eq_true, Option.map_some]
      exact applySaves_publishedAt_preserved rest _ now hset
    · have hkeep : (noteSave { n with status := st } now).published_at = none := by
        simp [noteSave, h, hs]
      have hfind : ((st, now).1 == "published") = false := beq_eq_false_iff_ne.mpr hs
      simp only [applySaves, List.find?_cons, hfind]
      exact ih _ hkeep

/-- C9: `published_at` is written exactly once — by the first save whose
status is `published` while `published_at` is unset — and no later save
(whatever the status, including re-publishing after archiving) modifies
a non-null `published_at`. -/
theorem c9_published_at_write_once (n : Note) (now : Nat) :
    (∀ t, n.published_at = some t → (noteSave n now).published_at = some t)
    ∧ (n.published_at = none →
        (noteSave n now).published_at =
          if n.status = "published" then some now else none)
    ∧ (∀ steps, n.published_at = none →
        (applySaves n steps).published_at =
          ((steps.find? fun s => s.1 == "published").map Prod.snd)) := by
  refine ⟨fun t h => noteSave_publishedAt_preserved n now t h, fun h => ?_, ?_⟩
  · by_cases hs : n.status = "published"
    · simp [noteSave, h, hs]
    · simp [noteSave, h, hs]
  · intro steps h
    exact applySaves_publishedAt_first steps n h

/-- C9 witness: publishing at time 7, then archiving and re-publishing,
leaves `published_at = 7`. -/
theorem c9_published_at_write_once_witness :
    (applySaves ⟨1, 1, "t", "hello", "", 0, 0, "draft", "private", none, none⟩
      [("published", 7), ("archived", 8), ("published", 9)]).published_at = some 7 := by
  have h := (c9_published_at_write_once
    ⟨1, 1, "t", "hello", "", 0, 0, "draft", "private", none, none⟩ 0).2.2
    [("published", 7), ("archived", 8), ("published", 9)] rfl
  simpa using h

/-- C10: a save fills an empty `excerpt` from a non-empty `content` —
verbatim when the content has at most 500 characters, else the first 500
characters followed by `...` — and never overwrites a non-empty
`excerpt`. -/
theorem c10_excerpt_autofill (n : Note) (now : Nat) :
    (n.excerpt ≠ "" → (noteSave n now).excerpt = n.excerpt)
    ∧ (n.excerpt = "" → n.content ≠ "" → pyLen n.content ≤ 500 →
        (noteSave n now).excerpt = n.content)
    ∧ (n.excerpt = "" → n.content ≠ "" → 500 < pyLen n.content →
        (noteSave n now).excerpt = pyTake n.content 500 ++ "...") := by
  refine ⟨fun h => ?_, fun h1 h2 h3 => ?_, fun h1 h2 h3 => ?_⟩
  · have hb : (n.excerpt == "") = false := beq_eq_false_iff_ne.mpr h
    simp [noteSave, hb]
  · have hc : (n.content == "") = false := beq_eq_false_iff_ne.mpr h2
    have hlen : ¬ 500 < pyLen n.content := Nat.not_lt.mpr h3
    simp [noteSave, h1, hc, hlen]
  · have hc : (n.content == "") = false := beq_eq_false_iff_ne.mpr h2
    simp [noteSave, h1, hc, h3]

/-- C10 witness: saving with empty excerpt and short content copies the
content into the excerpt. -/
theorem c10_excerpt_autofill_witness :
    (noteSave ⟨1, 1, "t", "hi there", "", 0, 0, "draft", "private", none, none⟩ 0).excerpt
      = "hi there" :=
  (c10_excerpt_autofill
    ⟨1, 1, "t", "hi there", "", 0, 0, "draft", "private", none, none⟩ 0).2.1
    rfl (by decide) (by decide)

/-- C7 counterexample: note 1 already has an active grant for user 2 at
level `view`; sharing again at level `admin` leaves the table — and the
stored level — unchanged (`get_or_create` ignores `defaults` for an
existing row), so the claimed level update does not happen. -/
theorem c7_share_upsert_counterexample :
    getOrCreateCollaborator [⟨1, 2, "view", true⟩] 1 2 "admin" =
      ([⟨1, 2, "view", true⟩], ⟨1, 2, "view", true⟩, false)
    ∧ ((getOrCreateCollaborator [⟨1, 2, "view", true⟩] 1 2 "admin").1.find?
        (fun c => c.note == 1 && c.user == 2)).map NoteCollaborator.permission
      = some "view" := by
  decide

/-- C7 (amended): sharing is a no-op on existing rows — for a `(note,
user)` pair that already has a grant row, sharing again (at any level)
returns the row untouched, creates no duplicate, and reports that no new
grant was created (`shared_count` contribution 0, so the new-share
notification path is not triggered); only when no row exists is a new
active row at the requested level appended and a new grant reported. -/
theorem c7_share_existing_row_untouched (collabs : List NoteCollaborator)
    (noteId userId : Nat) (permission : String) :
    (∀ c, collabs.find? (fun c => c.note == noteId && c.user == userId) = some c →
      getOrCreateCollaborator collabs noteId userId permission = (collabs, c, false)
      ∧ shareCreatedCount collabs noteId userId permission = 0)
    ∧ (collabs.find? (fun c => c.note == noteId && c.user == userId) = none →
      getOrCreateCollaborator collabs noteId userId permission =
        (collabs ++ [⟨noteId, userId, permission, true⟩],
          ⟨noteId, userId, permission, true⟩, true)
      ∧ shareCreatedCount collabs noteId userId permission = 1) := by
  constructor
  · intro c h
    constructor
    · simp [getOrCreateCollaborator, h]
    · simp [shareCreatedCount, getOrCreateCollaborator, h]
  · intro h
    constructor
    · simp [getOrCreateCollaborator, h]
    · simp [shareCreatedCount, getOrCreateCollaborator, h]

/-- C7 witness: re-sharing note 1 with user 2 at `admin` when a `view`
grant row exists returns the old row and reports nothing created. -/
theorem c7_share_existing_row_untouched_witness :
    getOrCreateCollaborator [⟨1, 2, "view", true⟩] 1 2 "admin" =
      ([⟨1, 2, "view", true⟩], ⟨1, 2, "view", true⟩, false)
    ∧ shareCreatedCount [⟨1, 2, "view", true⟩] 1 2 "admin" = 0 :=
  (c7_share_existing_row_untouched [⟨1, 2, "view", true⟩] 1 2 "admin").1
    ⟨1, 2, "view", true⟩ rfl

/-- For a predicate matched by at most one element, `eraseP` removes
exactly the matching elements. -/
lemma eraseP_eq_filter_not_of_countP_le_one {α : Type} (p : α → Bool) :
    ∀ l : List α, l.countP p ≤ 1 → l.eraseP p = l.filter (fun a => !(p a)) := by
  intro l
  induction l with
  | nil => intro _; rfl
  | cons a l ih =>
    intro h
    rw [List.countP_cons] at h
    cases hp : p a
    · simp only [hp, Bool.false_eq_true, if_false, Nat.add_zero] at h
      simp [List.eraseP_cons, List.filter_cons, hp, ih h]
    · simp only [hp, if_true] at h
      have hz : l.countP p = 0 := by omega
      have hall : ∀ b ∈ l, (!p b) = true := by
        intro b hb
        cases hpb : p b
        · rfl
        · exfalso
          have hgt : 0 < l.countP p := List.countP_pos_iff.mpr ⟨b, hb, hpb⟩
          omega
      simp [List.eraseP_cons, List.filter_cons, hp, List.filter_eq_self.mpr hall]

/-- C8 counterexample: with an active `edit` grant for user 2 on note 1,
`unshare` returns a table with the row gone entirely (hard delete), not a
deactivated row; and with only an inactive row present, `unshare` does
not fail with `NotFound` — it deletes that row too. -/
theorem c8_unshare_counterexample :
    unshareCollaborator [⟨1, 2, "edit", true⟩] 1 2 = Except.ok []
    ∧ unshareCollaborator [⟨1, 2, "edit", false⟩] 1 2 = Except.ok [] :=
  ⟨rfl, rfl⟩

/-- C8 (amended): `unshare` fails with HTTP 404 (`NotFound`) exactly when
no collaborator row — active or inactive — exists for the `(note, user)`
pair; otherwise (the unique matching row) it hard-deletes that row,
keeping every other row and preserving nothing of the deleted grant. -/
theorem c8_unshare_hard_deletes (collabs : List NoteCollaborator) (noteId userId : Nat) :
    (collabs.countP (fun c => c.note == noteId && c.user == userId) = 0 →
      unshareCollaborator collabs noteId userId = Except.error 404)
    ∧ (collabs.countP (fun c => c.note == noteId && c.user == userId) = 1 →
      unshareCollaborator collabs noteId userId =
        Except.ok (collabs.filter (fun c => !(c.note == noteId && c.user == userId)))) := by
  constructor
  · intro h
    have hnone : collabs.find? (fun c => c.note == noteId && c.user == userId) = none := by
      apply List.find?_eq_none.mpr
      intro x hx hpx
      have hgt : 0 < collabs.countP (fun c => c.note == noteId && c.user == userId) :=
        List.countP_pos_iff.mpr ⟨x, hx, hpx⟩
      omega
    simp [unshareCollaborator, hnone]
  · intro h
    have hpos : 0 < collabs.countP (fun c => c.note == noteId && c.user == userId) := by
      omega
    obtain ⟨x, hx, hpx⟩ := List.countP_pos_iff.mp hpos
    have hsome : (collabs.find? (fun c => c.note == noteId && c.user == userId)).isSome := by
      rw [List.find?_isSome]
      exact ⟨x, hx, hpx⟩
    obtain ⟨c, hc⟩ := Option.isSome_iff_exists.mp hsome
    simp only [unshareCollaborator, hc]
    rw [eraseP_eq_filter_not_of_countP_le_one _ collabs (by omega)]

/-- C8 witness: unsharing the single active grant yields an empty table. -/
theorem c8_unshare_hard_deletes_witness :
    unshareCollaborator [⟨1, 2, "edit", true⟩] 1 2 = Except.ok [] := by
  have h := (c8_unshare_hard_deletes [⟨1, 2, "edit", true⟩] 1 2).2 (by decide)
  simpa using h

/-- The freshly committed version always has the largest number, so the
re-read ordered view is just a cons. -/
lemma insertDescByNumber_nextVersion_eq_cons (store : VersionStore)
    (t c : String) (u : Nat) (s : String) :
    insertDescByNumber (nextVersion store t c u s) store =
      nextVersion store t c u s :: store := by
  cases store with
  | nil => rfl
  | cons w ws =>
    have hn : (nextVersion (w :: ws) t c u s).version_number = w.version_number + 1 := rfl
    simp [insertDescByNumber, hn, Nat.le_succ]

/-- With a positive retention limit, the newest version survives pruning
and heads the store. -/
lemma createNoteVersion_head (m : Nat) (store : VersionStore)
    (t c : String) (u : Nat) (s : String) :
    (createNoteVersion (m + 1) store t c u s).head? = some (nextVersion store t c u s) := by
  rw [createNoteVersion, insertDescByNumber_nextVersion_eq_cons]
  rfl

/-- With a positive retention limit, the numbers assigned by successive
commits from a non-empty store count up from the head's number. -/
lemma commitNumbers_eq_range (m : Nat) :
    ∀ (cs : List CommitInput) (store : VersionStore) (v : NoteVersion),
      store.head? = some v →
      commitNumbers (m + 1) store cs = List.range' (v.version_number + 1) cs.length := by
  intro cs
  induction cs with
  | nil => intro store v h; rfl
  | cons c cs ih =>
    intro store v h
    have hnum : (nextVersion store c.title c.content c.user c.summary).version_number
        = v.version_number + 1 := by
      cases store with
      | nil => simp at h
      | cons w ws =>
        obtain rfl : w = v := by simpa using h
        rfl
    simp only [commitNumbers, List.length_cons]
    rw [ih (createNoteVersion (m + 1) store c.title c.content c.user c.summary)
        (nextVersion store c.title c.content c.user c.summary)
        (createNoteVersion_head m store c.title c.content c.user c.summary)]
    rw [List.range'_succ, hnum]

/-- C4: the note-creation signal stores exactly one version, numbered 1,
with all-zero diff statistics; and over the whole life of the note (the
creation commit followed by any sequence of commits, with a positive
retention limit) the assigned version numbers are exactly
`1, 2, ..., k` — strictly increasing and gapless from 1 — so precisely
one version is ever created with number 1. -/
theorem c4_version_one_and_gapless (max_versions : Nat) (h : 1 ≤ max_versions)
    (author : Nat) (title content : String) (cs : List CommitInput) :
    noteCreationStore max_versions author title content =
      [{ version_number := 1, title := title, content := content,
         change_summary := "Versión inicial", created_by := author,
         characters_added := 0, characters_removed := 0,
         words_added := 0, words_removed := 0 }]
    ∧ commitNumbers max_versions []
        ({ title := title, content := content, user := author,
           summary := "Versión inicial" } :: cs) = List.range' 1 (cs.length + 1)
    ∧ (commitNumbers max_versions []
        ({ title := title, content := content, user := author,
           summary := "Versión inicial" } :: cs)).count 1 = 1 := by
  obtain ⟨m, rfl⟩ : ∃ m, max_versions = m + 1 := ⟨max_versions - 1, by omega⟩
  have h2 : commitNumbers (m + 1) []
      ({ title := title, content := content, user := author,
         summary := "Versión inicial" } :: cs) = List.range' 1 (cs.length + 1) := by
    simp only [commitNumbers, List.length_cons]
    rw [commitNumbers_eq_range m cs
        (createNoteVersion (m + 1) [] title content author "Versión inicial")
        (nextVersion [] title content author "Versión inicial")
        (createNoteVersion_head m [] title content author "Versión inicial")]
    rw [List.range'_succ]
    rfl
  have h1 : noteCreationStore (m + 1) author title content =
      [{ version_number := 1, title := title, content := content,
         change_summary := "Versión inicial", created_by := author,
         characters_added := 0, characters_removed := 0,
         words_added := 0, words_removed := 0 }] := by
    simp [noteCreationStore, createNoteVersion, insertDescByNumber, nextVersion]
  refine ⟨h1, h2, ?_⟩
  rw [h2, List.range'_succ, List.count_cons_self]
  have hz : (List.range' (1 + 1) cs.length).count 1 = 0 := by
    rw [List.count_eq_zero]
    intro hmem
    have hb := List.mem_range'_1.mp hmem
    omega
  omega

/-- C5: a commit first appends the new version (which carries the
largest number) and then prunes: on a well-formed store (strictly
descending version numbers) exactly the rows beyond the `max_versions`
newest are deleted — the result is the `max_versions`-prefix of the
descending chain, nothing is deleted while the count is within the
limit, precisely `min max_versions (count + 1)` rows remain, each
surviving row is an unchanged row of the pre-prune chain (no
renumbering), and every deleted row's number is smaller than every
survivor's. -/
theorem c5_retention_prunes_oldest (max_versions : Nat) (store : VersionStore)
    (t c : String) (u : Nat) (s : String)
    (hsorted : store.Pairwise (fun a b => b.version_number < a.version_number)) :
    createNoteVersion max_versions store t c u s =
      (nextVersion store t c u s :: store).take max_versions
    ∧ (store.length + 1 ≤ max_versions →
        createNoteVersion max_versions store t c u s = nextVersion store t c u s :: store)
    ∧ (createNoteVersion max_versions store t c u s).length
        = min max_versions (store.length + 1)
    ∧ (createNoteVersion max_versions store t c u s).Sublist
        (nextVersion store t c u s :: store)
    ∧ (∀ x ∈ (nextVersion store t c u s :: store).drop max_versions,
        ∀ y ∈ createNoteVersion max_versions store t c u s,
          x.version_number < y.version_number) := by
  have hmain : createNoteVersion max_versions store t c u s =
      (nextVersion store t c u s :: store).take max_versions := by
    rw [createNoteVersion, insertDescByNumber_nextVersion_eq_cons]
  have hpre : (nextVersion store t c u s :: store).Pairwise
      (fun a b => b.version_number < a.version_number) := by
    refine List.Pairwise.cons ?_ hsorted
    intro b hb
    cases store with
    | nil => simp at hb
    | cons w ws =>
      have hn : (nextVersion (w :: ws) t c u s).version_number = w.version_number + 1 := rfl
      rw [hn]
      rcases List.mem_cons.mp hb with rfl | hb2
      · omega
      · have hw := (List.pairwise_cons.mp hsorted).1 b hb2
        omega
  refine ⟨hmain, ?_, ?_, ?_, ?_⟩
  · intro hlen
    rw [hmain]
    exact List.take_of_length_le (by simpa using hlen)
  · rw [hmain, List.length_take]
    simp
  · rw [hmain]
    exact List.take_sublist _ _
  · intro x hx y hy
    rw [hmain] at hy
    have hsplit := List.take_append_drop max_versions (nextVersion store t c u s :: store)
    rw [← hsplit] at hpre
    have hcross := (List.pairwise_append.mp hpre).2.2
    exact hcross y hy x hx

/-- C4 witness: with the default retention limit 50, creating a note and
committing one edit assigns the numbers `[1, 2]`. -/
theorem c4_version_one_and_gapless_witness :
    commitNumbers 50 []
      [{ title := "t", content := "hello world", user := 1, summary := "Versión inicial" },
       { title := "t", content := "hello world again", user := 2, summary := "upd" }]
      = List.range' 1 2 := by
  have h := (c4_version_one_and_gapless 50 (by decide) 1 "t" "hello world"
    [{ title := "t", content := "hello world again", user := 2, summary := "upd" }]).2.1
  simpa using h

/-- C5 witness: committing onto a two-version store with retention limit
2 leaves exactly 2 versions. -/
theorem c5_retention_prunes_oldest_witness :
    (createNoteVersion 2 [⟨2, "t2", "c2", "s2", 1, 1, 1, 0, 0⟩,
        ⟨1, "t1", "c1", "s1", 1, 0, 0, 0, 0⟩] "t3" "c3" 1 "s3").length
      = min 2 ([⟨2, "t2", "c2", "s2", 1, 1, 1, 0, 0⟩,
        (⟨1, "t1", "c1", "s1", 1, 0, 0, 0, 0⟩ : NoteVersion)].length + 1) :=
  (c5_retention_prunes_oldest 2 [⟨2, "t2", "c2", "s2", 1, 1, 1, 0, 0⟩,
    ⟨1, "t1", "c1", "s1", 1, 0, 0, 0, 0⟩] "t3" "c3" 1 "s3" (by decide)).2.2.1

/-- C6 counterexample: the spec's §8 scenario — a note created with
content `"hello world"`, then edited to `"hello world again"` — does
not produce `words_added = 1` on version 2. -/
theorem c6_words_added_counterexample :
    ¬ ((createNoteVersion 50 (noteCreationStore 50 1 "greeting" "hello world")
        "greeting" "hello world again" 2 "Actualización: content").head?.map
        (fun v => (v.version_number, v.words_added)) = some (2, 1)) := by
  decide

/-- C6 (amended): that edit commits version 2 with `words_added = 2` (and
`words_removed = 1`, `characters_added = 17`, `characters_removed = 11`):
the stat loop counts `len(line.split()) - 1` on the diff line
`+hello world again`, whose `+` marker is glued to the first word, so the
subtraction removes a real word, not the marker. -/
theorem c6_words_added_is_two :
    (createNoteVersion 50 (noteCreationStore 50 1 "greeting" "hello world")
      "greeting" "hello world again" 2 "Actualización: content").head? =
      some { version_number := 2, title := "greeting", content := "hello world again",
             change_summary := "Actualización: content", created_by := 2,
             characters_added := 17, characters_removed := 11,
             words_added := 2, words_removed := 1 } := by
  decide

end NotesDjango
